import Mathlib

/-!
Verification of the work-package split/join collaboration tools of the
`st_tools` repository.

The development shallowly embeds the JavaScript sources:

* `split-work.js` (image variant, `ai_image_viewer/.../collab/js`, and document
  variant, `ai_docu/collab/js`): file discovery, ceil-chunking into work
  packages, CLI validation, per-package creation order.
* `join-work.js` (image variant, `src/unnamed/part_002`): archive resolution,
  package validation, image collection with first-survives deduplication,
  metadata merge, temp-directory lifecycle, output overwrite handling.
* `join-work.js` (document variant, `ai_docu/collab/js`): metadata discovery
  and merge via `Object.assign`, in-place zip extraction.

File contents are modelled as lists of bytes (`List Nat`); filesystem side
effects are modelled as explicit state or event traces.
-/

namespace STTools

/-- A content file: its basename and its bytes. The joiner deduplicates
strictly by `name`; `bytes` travels untouched through every copy. -/
structure MediaFile where
  name : String
  bytes : List Nat
deriving DecidableEq

/-! ## Splitter (split-work.js, both variants) -/

/-- Supported document extensions of `DocumentSplitter` (`ai_docu` variant). -/
def docExtensions : List String := [".txt", ".pdf", ".docx", ".rtf", ".md"]

/-- Node's `path.extname`: the substring from the last dot, empty when the
name has no dot or when the only dot is the leading character. -/
def extname (s : String) : String :=
  let rev := s.data.reverse
  let ext := rev.takeWhile (fun c => c ≠ '.')
  if ext.length + 1 < s.data.length then String.mk ('.' :: ext.reverse)
  else ""

/-- One entry of a directory listing, as seen by `fs.readdir` + `fs.stat`. -/
structure DirEntry where
  name : String
  isFile : Bool
deriving DecidableEq

/-- Insertion of a string into an ascending list, helper for `sortStrings`. -/
def insertSorted (x : String) : List String → List String
  | [] => [x]
  | y :: ys => if x ≤ y then x :: y :: ys else y :: insertSorted x ys

/-- Model of JavaScript `Array.prototype.sort()` on the discovered file
names: produces the ascending reordering of the input. -/
def sortStrings : List String → List String
  | [] => []
  | x :: xs => insertSorted x (sortStrings xs)

/-- `DocumentSplitter.getDocumentFiles`: keep the plain files whose
lower-cased extension is in the allow-list, then sort the names. -/
def getDocumentFiles (listing : List DirEntry) : List String :=
  sortStrings
    ((listing.filter
      (fun e => e.isFile && docExtensions.contains ((extname e.name).toLower))).map
      DirEntry.name)

/-- `Math.ceil(total / numSplits)` on naturals (for `0 < ns`). -/
def chunkSizeOf (total ns : Nat) : Nat := (total + ns - 1) / ns

/-- `DocumentSplitter.splitDocuments` / `WorkSplitter.splitImages`: slice the
sorted file list into `numSplits` contiguous chunks of `chunkSizeOf` files,
dropping the empty trailing chunks. -/
def splitChunks (files : List α) (ns : Nat) : List (List α) :=
  ((List.range ns).map (fun i =>
      (files.drop (i * chunkSizeOf files.length ns)).take (chunkSizeOf files.length ns))).filter
    (fun c => !c.isEmpty)

/-- `DocumentSplitter.split`: after chunking, a warning line is printed iff
the actual package count differs from the requested `numSplits`. -/
def splitMismatchWarned (files : List α) (ns : Nat) : Bool :=
  (splitChunks files ns).length != ns

/-- The split CLI action (both variants): `numSplits` below 1 or above 100 is
rejected before any filesystem work; an empty match list is rejected next;
otherwise the chunks are built. -/
def cliSplitAction (numSplits : Int) (files : List String) :
    Except String (List (List String)) :=
  if numSplits < 1 then Except.error "Number of splits must be at least 1"
  else if numSplits > 100 then
    Except.error "Number of splits cannot exceed 100 (too many packages)"
  else if files.isEmpty then Except.error "No document files found in source folder"
  else Except.ok (splitChunks files numSplits.toNat)

/-! ### Chunking lemmas -/

theorem flatten_filter_not_empty (L : List (List α)) :
    (L.filter (fun c => !c.isEmpty)).flatten = L.flatten := by
  induction L with
  | nil => rfl
  | cons c L ih =>
    by_cases h : c.isEmpty
    · have hc : c = [] := by simpa using h
      simp [List.filter_cons, h, hc, ih]
    · simp [List.filter_cons, h, ih]

theorem flatten_range_slices (cs : Nat) (xs : List α) (ns : Nat) :
    ((List.range ns).map (fun i => (xs.drop (i * cs)).take cs)).flatten = xs.take (ns * cs) := by
  induction ns with
  | zero => simp
  | succ n ih =>
    rw [List.range_succ, List.map_append, List.flatten_append, ih]
    simp [Nat.succ_mul, List.take_add]

theorem le_mul_chunkSizeOf (n ns : Nat) (h : 0 < ns) :
    n ≤ ns * chunkSizeOf n ns := by
  unfold chunkSizeOf
  have hdm := Nat.div_add_mod (n + ns - 1) ns
  have hmlt : (n + ns - 1) % ns < ns := Nat.mod_lt _ h
  omega

theorem splitChunks_flatten (files : List α) (ns : Nat) (h : 0 < ns) :
    (splitChunks files ns).flatten = files := by
  unfold splitChunks
  rw [flatten_filter_not_empty, flatten_range_slices]
  exact List.take_of_length_le (le_mul_chunkSizeOf files.length ns h)

/-! ## Joiner, image variant (`WorkJoiner` in `src/unnamed/part_002`) -/

/-- The duplicate-skipping loop of `WorkJoiner.collectImages`: files are
visited in order; a file whose name was already seen is skipped with a
warning (first survives), otherwise it is kept and its name recorded. -/
def dedupFirst (seen : List String) : List MediaFile → List MediaFile
  | [] => []
  | f :: rest =>
    if f.name ∈ seen then dedupFirst seen rest
    else f :: dedupFirst (f.name :: seen) rest

/-- `WorkJoiner.collectImages`: one pass over the valid packages in
processing order with a single shared `seenNames` set. -/
def collectImages (pkgs : List (List MediaFile)) : List MediaFile :=
  dedupFirst [] pkgs.flatten

/-- One per-image analysis record of an exported metadata document. The
source treats the record as an opaque JSON object and only reads its
`modelUsed` field; the claims additionally look at a `tag` field. -/
structure AIRecord where
  tag : String
  modelUsed : Option String
deriving DecidableEq

/-- One parsed analysis-metadata document found inside a work package
(`captions`, `aiData` and `totalImages` keys, as read by
`WorkJoiner.mergeMetadata`). Entry lists mirror JSON object key order. -/
structure ImageMetadataDoc where
  captions : List (String × String)
  aiData : List (String × AIRecord)
  totalImages : Nat
deriving DecidableEq

/-- The merged document built by `WorkJoiner.mergeMetadata` (content fields
and `consolidation_info` counters; timestamps and source-file names are
omitted). -/
structure MergedImageMetadata where
  captions : List (String × String)
  aiData : List (String × AIRecord)
  modelsUsed : List String
  totalImages : Nat
  totalAnalyzed : Nat
  aiEnabled : Bool
deriving DecidableEq

/-- `if (!merged[key]) merged[key] = value` on a JS object modelled as an
assoc list in key-insertion order: a later value for an existing key is
skipped (first survives), a new key is appended. -/
def insertIfAbsent (m : List (String × β)) (k : String) (v : β) : List (String × β) :=
  if (m.find? (fun p => p.1 == k)).isSome then m else m ++ [(k, v)]

/-- Folding one document's entries into the accumulated object. -/
def mergeEntries (m : List (String × β)) (entries : List (String × β)) :
    List (String × β) :=
  entries.foldl (fun a p => insertIfAbsent a p.1 p.2) m

/-- The `modelsUsed.add(aiData.modelUsed)` calls: in the source this `Set`
insertion happens for every `aiData` entry, including ones whose record is
dropped as a duplicate key. -/
def collectModels (models : List String) (entries : List (String × AIRecord)) :
    List String :=
  entries.foldl
    (fun ms p =>
      match p.2.modelUsed with
      | some m => if m ∈ ms then ms else ms ++ [m]
      | none => ms)
    models

/-- In-flight accumulator of `WorkJoiner.mergeMetadata`. -/
structure MergedAcc where
  captions : List (String × String)
  aiData : List (String × AIRecord)
  models : List String
  imageCount : Nat

/-- Processing one metadata file inside the `for (const metaFile of
metadataFiles)` loop: captions and aiData merge first-survives, models
accumulate, `totalImages` values add up. -/
def mergeOneDoc (acc : MergedAcc) (doc : ImageMetadataDoc) : MergedAcc :=
  { captions := mergeEntries acc.captions doc.captions
    aiData := mergeEntries acc.aiData doc.aiData
    models := collectModels acc.models doc.aiData
    imageCount := acc.imageCount + doc.totalImages }

/-- `WorkJoiner.mergeMetadata` over the parsed documents in discovery order:
`total_analyzed_images` is the number of distinct `aiData` keys. -/
def mergeMetadata (docs : List ImageMetadataDoc) : MergedImageMetadata :=
  let acc := docs.foldl mergeOneDoc { captions := [], aiData := [], models := [], imageCount := 0 }
  { captions := acc.captions
    aiData := acc.aiData
    modelsUsed := acc.models
    totalImages := acc.imageCount
    totalAnalyzed := acc.aiData.length
    aiEnabled := true }

/-- A validated work package: its `images/` files and the parsed analysis
metadata documents found at its top level. -/
structure Package where
  images : List MediaFile
  metadataDocs : List ImageMetadataDoc
deriving DecidableEq

/-- The joiner's in-memory output: the deduplicated image list and the
consolidated metadata document. -/
structure JoinResult where
  images : List MediaFile
  metadata : MergedImageMetadata
deriving DecidableEq

/-- `WorkJoiner.join` after archive resolution (part_002 lines 456-502):
fail when no valid package remains; collect images first-survives; when no
metadata document exists anywhere, emit the content-only metadata with
`aiEnabled: false` and `totalImages` set to the deduplicated image count,
otherwise merge the found documents. -/
def joinValidated (validPackages : List Package) : Except String JoinResult :=
  if validPackages.isEmpty then Except.error "No valid packages found to merge"
  else
    let allImages := collectImages (validPackages.map Package.images)
    let docs := (validPackages.map Package.metadataDocs).flatten
    if docs.isEmpty then
      Except.ok
        { images := allImages
          metadata :=
            { captions := []
              aiData := []
              modelsUsed := []
              totalImages := allImages.length
              totalAnalyzed := 0
              aiEnabled := false } }
    else Except.ok { images := allImages, metadata := mergeMetadata docs }

/-- One CLI input path of the image-variant joiner: either a `.tar.gz`
archive (holding work packages) or a directory, whose `work-package-*`
subdirectories and nested `*.tar.gz` archives are both picked up by
`WorkJoiner.detectAndExtractArchives`. -/
inductive JoinInput where
  | archive (name : String) (packages : List Package)
  | dir (name : String) (workPackages : List Package) (nestedArchives : List (List Package))
deriving DecidableEq

/-- `WorkJoiner.detectAndExtractArchives`: the first pass over the inputs
pushes the `work-package-*` directories found inside directory inputs (in
input order) and queues every archive; the second pass extracts the queued
archives into the temp directory, appending their packages after all
directory-derived ones. -/
def detectAndExtractArchives (inputs : List JoinInput) : List Package :=
  let firstPass :=
    inputs.foldl
      (fun (acc : List Package × List (List Package)) i =>
        match i with
        | JoinInput.archive _ ps => (acc.1, acc.2 ++ [ps])
        | JoinInput.dir _ ws nested => (acc.1 ++ ws, acc.2 ++ nested))
      ([], [])
  firstPass.1 ++ firstPass.2.flatten

/-- Whether any `.tar.gz` archive is among the inputs (directly or inside a
directory input); the temp directory is created exactly in that case. -/
def hasArchives (inputs : List JoinInput) : Bool :=
  inputs.any (fun i =>
    match i with
    | JoinInput.archive _ _ => true
    | JoinInput.dir _ _ nested => !nested.isEmpty)

/-- Outcome of one image-variant join run: the body's result together with
the temp directory's state (`none`: never created this run; `some b`: created
by `mkdtemp`, with `b` recording whether it still exists afterwards). -/
structure WJRun where
  result : Except String JoinResult
  tempDir : Option Bool

/-- `WorkJoiner.join`: `detectAndExtractArchives` creates the temp directory
when archives are present; the body validates and merges; the `finally`
clause runs `cleanupTempFiles` (remove the temp directory if it was created)
on the success path and on the error path alike. -/
def workJoinerJoin (inputs : List JoinInput) : WJRun :=
  let created : Option Bool := if hasArchives inputs then some true else none
  match joinValidated (detectAndExtractArchives inputs) with
  | Except.ok r => { result := Except.ok r, tempDir := created.map (fun _ => false) }
  | Except.error e => { result := Except.error e, tempDir := created.map (fun _ => false) }

/-- What `main` in the image-variant join CLI does about a pre-existing
output directory before the join runs. -/
structure OverwriteOutcome where
  removedExisting : Bool
  confirmationRequested : Bool
deriving DecidableEq

/-- Output overwrite handling in `main` (part_002 lines 545-552): without
`--force` the code only logs a note — its own comment says a prompt is
intended ("In a real CLI, you'd want to prompt for user input. For now,
we'll just remove it") — and then removes the directory anyway; with
`--force` it removes it as well. No code path asks for confirmation. -/
def handleExistingOutput (outputExists force : Bool) : OverwriteOutcome :=
  if outputExists && !force then { removedExisting := true, confirmationRequested := false }
  else if outputExists && force then { removedExisting := true, confirmationRequested := false }
  else { removedExisting := false, confirmationRequested := false }

/-! ## Joiner, document variant (`DocumentJoiner` in `ai_docu/collab/js/join-work.js`) -/

/-- One parsed metadata file of the document variant: the per-document
records under the required top-level `metadata` key (the record shape `α` is
opaque to the joiner) and the optional `export_info.ai_model`. -/
structure DocuMetadataDoc (α : Type) where
  metadata : List (String × α)
  aiModel : Option String
deriving DecidableEq

/-- The merged output of `DocumentJoiner.mergeMetadata`. -/
structure DocuMerged (α : Type) where
  metadata : List (String × α)
  aiModelsUsed : List String
  mergedPackages : Nat
  totalDocuments : Nat
deriving DecidableEq

/-- JS `Object.assign(target, source)` for one key: an existing key keeps its
position but its value is OVERWRITTEN by the later one; a new key is
appended. -/
def assignKey (m : List (String × β)) (k : String) (v : β) : List (String × β) :=
  if (m.find? (fun p => p.1 == k)).isSome then
    m.map (fun p => if p.1 == k then (k, v) else p)
  else m ++ [(k, v)]

/-- `DocumentJoiner.mergeMetadata`: `Object.assign(merged.metadata,
doc.metadata)` for each document in discovery order (so a later document's
record for the same filename replaces the earlier one), `ai_model` values
accumulate as a set, `total_documents` is the merged key count. `none`
models the bare `{}` returned for an empty input list. -/
def docuMergeMetadata (all : List (DocuMetadataDoc α)) : Option (DocuMerged α) :=
  if all.isEmpty then none
  else
    let metadata :=
      all.foldl (fun acc d => d.metadata.foldl (fun a p => assignKey a p.1 p.2) acc) []
    let models :=
      all.foldl
        (fun acc d =>
          match d.aiModel with
          | some m => if m ∈ acc then acc else acc ++ [m]
          | none => acc)
        []
    some
      { metadata := metadata
        aiModelsUsed := models
        mergedPackages := all.length
        totalDocuments := metadata.length }

/-- A package directory found by `DocumentJoiner.findPackageDirectories`,
with the metadata documents that parsed successfully inside it. -/
structure DocuPackage (α : Type) where
  name : String
  metadataDocs : List (DocuMetadataDoc α)
deriving DecidableEq

/-- `DocumentJoiner.join` after package discovery: zero package directories
is fatal, and — unlike the image variant — zero loadable metadata files is
fatal too ("No valid metadata files found to merge", join-work.js lines
336-338); there is no content-only success path. -/
def docuJoin (pkgs : List (DocuPackage α)) : Except String (DocuMerged α) :=
  if pkgs.isEmpty then Except.error "No package directories found"
  else
    match docuMergeMetadata (pkgs.map DocuPackage.metadataDocs).flatten with
    | none => Except.error "No valid metadata files found to merge"
    | some m => Except.ok m

/-- `file.endsWith(suffix)` on the underlying character lists. -/
def strEndsWith (s suf : String) : Bool := suf.data.isSuffixOf s.data

/-- `path.basename(archiveFile, '.zip')`: strip the four-character `.zip`
extension. -/
def stripZipExt (s : String) : String := String.mk (s.data.take (s.data.length - 4))

/-- Input-folder state as seen by the document-variant joiner: the entry
names inside the input folder, and whether a temporary scratch directory was
ever created (the source has no `mkdtemp` call, so no transition sets it). -/
structure DocuFsState where
  inputEntries : List String
  tempDirCreated : Bool
deriving DecidableEq

/-- `DocumentJoiner.extractCompressedPackages`: each `*.zip` found in the
input folder is extracted with `zip.extractAllTo(this.inputFolder, true)` —
the destination is the input folder itself, not a scratch directory — so the
extracted package folder appears next to the archive and nothing is removed
afterwards (`.tar.gz` files only get a printed suggestion). -/
def extractCompressedPackages (s : DocuFsState) : DocuFsState :=
  let zips := s.inputEntries.filter (fun e => strEndsWith e ".zip")
  { s with inputEntries := s.inputEntries ++ zips.map stripZipExt }

/-- The input-folder/temp-dir state after a whole document-variant join run:
the phases after extraction (discovery, metadata load, merge) only read the
input folder and write to the separate output folder, so the state is
exactly the post-extraction one — extracted folders stay in the input
folder and no temp directory ever exists. -/
def docuJoinRunState (s : DocuFsState) : DocuFsState :=
  extractCompressedPackages s

/-! ## Package creation order (createWorkPackage, both splitter variants) -/

/-- One filesystem effect of `createWorkPackage`. -/
inductive FsEvent where
  | mkdir (p : String)
  | copyFile (src dst : String)
  | writeFile (p : String)
deriving DecidableEq

/-- `chunkId.toString().padStart(3, '0')`. -/
def pad3 (n : Nat) : String :=
  let s := toString n
  if s.length < 3 then String.mk (List.replicate (3 - s.length) '0') ++ s else s

/-- Effect order of `DocumentSplitter.createWorkPackage` (ai_docu
split-work.js lines 93-140): package dir, HTML file, optional docs folder,
documents subdir and its files, then the manifest, and AFTER the manifest
the per-package `README.md` (`createPackageReadme` is called last). -/
def docuCreateWorkPackage (chunkId : Nat) (docs : List String)
    (docsFolderExists : Bool) : List FsEvent :=
  let pkg := "docu-package-" ++ pad3 chunkId
  [FsEvent.mkdir pkg]
    ++ [FsEvent.copyFile "ai_docu.html" (pkg ++ "/ai_docu.html")]
    ++ (if docsFolderExists then [FsEvent.copyFile "docs" (pkg ++ "/docs")] else [])
    ++ [FsEvent.mkdir (pkg ++ "/documents")]
    ++ docs.map (fun d => FsEvent.copyFile d (pkg ++ "/documents/" ++ d))
    ++ [FsEvent.writeFile (pkg ++ "/package-manifest.json"),
        FsEvent.writeFile (pkg ++ "/README.md")]

/-- The three viewer HTML files bundled by the image-variant splitter. -/
def imageHtmlFiles : List String :=
  ["ai_image_viewer.html", "ai_image_viewer_efficientnet.html", "ai_image_viewer_mediapipe.html"]

/-- Effect order of `WorkSplitter.createWorkPackage` (image variant,
split-work.js lines 84-125): package dir, HTML files, optional docs folder,
images subdir and its files, and the manifest write as the final step — this
variant writes no per-package README. -/
def imageCreateWorkPackage (chunkId : Nat) (imgs : List String)
    (docsFolderExists : Bool) : List FsEvent :=
  let pkg := "work-package-" ++ pad3 chunkId
  [FsEvent.mkdir pkg]
    ++ imageHtmlFiles.map (fun h => FsEvent.copyFile h (pkg ++ "/" ++ h))
    ++ (if docsFolderExists then [FsEvent.copyFile "docs" (pkg ++ "/docs")] else [])
    ++ [FsEvent.mkdir (pkg ++ "/images")]
    ++ imgs.map (fun i => FsEvent.copyFile i (pkg ++ "/images/" ++ i))
    ++ [FsEvent.writeFile (pkg ++ "/package-manifest.json")]

/-! ### Deduplication lemmas -/

theorem mem_dedupFirst_not_seen (l : List MediaFile) (seen : List String)
    (f : MediaFile) (hf : f ∈ dedupFirst seen l) : f.name ∉ seen := by
  induction l generalizing seen with
  | nil => simp [dedupFirst] at hf
  | cons g rest ih =>
    by_cases h : g.name ∈ seen
    · rw [dedupFirst, if_pos h] at hf
      exact ih seen hf
    · rw [dedupFirst, if_neg h] at hf
      rcases List.mem_cons.mp hf with rfl | hf
      · exact h
      · have := ih (g.name :: seen) hf
        exact fun hmem => this (List.mem_cons_of_mem _ hmem)

theorem dedupFirst_names_nodup (l : List MediaFile) (seen : List String) :
    ((dedupFirst seen l).map MediaFile.name).Nodup := by
  induction l generalizing seen with
  | nil => simp [dedupFirst]
  | cons g rest ih =>
    by_cases h : g.name ∈ seen
    · rw [dedupFirst, if_pos h]
      exact ih seen
    · rw [dedupFirst, if_neg h]
      rw [List.map_cons, List.nodup_cons]
      refine ⟨?_, ih (g.name :: seen)⟩
      intro hmem
      rcases List.mem_map.mp hmem with ⟨f, hf, hname⟩
      exact mem_dedupFirst_not_seen _ _ _ hf (hname ▸ List.mem_cons_self _ _)

theorem dedupFirst_filter_name (l : List MediaFile) (seen : List String)
    (n : String) (hn : n ∉ seen) :
    (dedupFirst seen l).filter (fun f => f.name == n) =
      (l.find? (fun f => f.name == n)).toList := by
  induction l generalizing seen with
  | nil => simp [dedupFirst]
  | cons g rest ih =>
    by_cases hg : g.name ∈ seen
    · have hne : ¬((fun f : MediaFile => f.name == n) g = true) := by
        simp only [beq_iff_eq]
        exact fun h => hn (h ▸ hg)
      rw [dedupFirst, if_pos hg,
        @List.find?_cons_of_neg MediaFile (fun f => f.name == n) g rest hne]
      exact ih seen hn
    · by_cases hgn : g.name = n
      · have hpos : ((fun f : MediaFile => f.name == n) g = true) := by simpa using hgn
        rw [dedupFirst, if_neg hg,
          @List.filter_cons_of_pos MediaFile (fun f => f.name == n) g _ hpos,
          @List.find?_cons_of_pos MediaFile (fun f => f.name == n) g rest hpos]
        have hnil : (dedupFirst (g.name :: seen) rest).filter (fun f => f.name == n) = [] := by
          rw [List.filter_eq_nil_iff]
          intro f hf hfn
          have hseen := mem_dedupFirst_not_seen _ _ _ hf
          have : f.name = n := by simpa using hfn
          exact hseen (by rw [this, hgn]; exact List.mem_cons_self _ _)
        rw [hnil]
        rfl
      · have hneg : ¬((fun f : MediaFile => f.name == n) g = true) := by simpa using hgn
        rw [dedupFirst, if_neg hg,
          @List.filter_cons_of_neg MediaFile (fun f => f.name == n) g _ hneg,
          @List.find?_cons_of_neg MediaFile (fun f => f.name == n) g rest hneg]
        exact ih (g.name :: seen) (by
          intro hmem
          rcases List.mem_cons.mp hmem with h | h
          · exact hgn h.symm
          · exact hn h)

theorem dedupFirst_eq_self (l : List MediaFile) (seen : List String)
    (h1 : (l.map MediaFile.name).Nodup) (h2 : ∀ f ∈ l, f.name ∉ seen) :
    dedupFirst seen l = l := by
  induction l generalizing seen with
  | nil => rfl
  | cons g rest ih =>
    have hg : g.name ∉ seen := h2 g (List.mem_cons_self _ _)
    rw [dedupFirst, if_neg hg]
    congr 1
    rw [List.map_cons, List.nodup_cons] at h1
    refine ih (g.name :: seen) h1.2 ?_
    intro f hf hmem
    rcases List.mem_cons.mp hmem with h | h
    · exact h1.1 (h ▸ List.mem_map_of_mem MediaFile.name hf)
    · exact h2 f (List.mem_cons_of_mem _ hf) h

/-! ### Metadata merge lemmas (image variant) -/

theorem find?_insertIfAbsent (m : List (String × β)) (k n : String) (v : β) :
    (insertIfAbsent m k v).find? (fun p => p.1 == n) =
      ((m.find? (fun p => p.1 == n)).or (if k == n then some (k, v) else none)) := by
  unfold insertIfAbsent
  by_cases h : (m.find? (fun p => p.1 == k)).isSome
  · rw [if_pos h]
    by_cases hkn : k = n
    · subst hkn
      rcases Option.isSome_iff_exists.mp h with ⟨x, hx⟩
      rw [hx]
      rfl
    · have : (k == n) = false := by simpa using hkn
      rw [this]
      simp
  · rw [if_neg h, List.find?_append]
    congr 1
    by_cases hkn : ((fun p : String × β => p.1 == n) (k, v) = true)
    · rw [@List.find?_cons_of_pos (String × β) (fun p => p.1 == n) (k, v) [] hkn, if_pos hkn]
    · rw [@List.find?_cons_of_neg (String × β) (fun p => p.1 == n) (k, v) [] hkn, if_neg hkn]
      rfl

theorem find?_mergeEntries (entries m : List (String × β)) (n : String) :
    (mergeEntries m entries).find? (fun p => p.1 == n) =
      ((m.find? (fun p => p.1 == n)).or (entries.find? (fun p => p.1 == n))) := by
  induction entries generalizing m with
  | nil => simp [mergeEntries]
  | cons e rest ih =>
    have step : mergeEntries m (e :: rest) = mergeEntries (insertIfAbsent m e.1 e.2) rest := rfl
    rw [step, ih, find?_insertIfAbsent, Option.or_assoc]
    congr 1
    by_cases he : ((fun p : String × β => p.1 == n) e = true)
    · rw [@List.find?_cons_of_pos (String × β) (fun p => p.1 == n) e rest he, if_pos he]
      rfl
    · rw [@List.find?_cons_of_neg (String × β) (fun p => p.1 == n) e rest he, if_neg he,
        Option.none_or]

theorem insertSorted_perm (x : String) (l : List String) :
    (insertSorted x l).Perm (x :: l) := by
  induction l with
  | nil => rfl
  | cons y ys ih =>
    rw [insertSorted]
    by_cases h : x ≤ y
    · rw [if_pos h]
    · rw [if_neg h]
      exact (List.Perm.cons y ih).trans (List.Perm.swap x y ys)

theorem sortStrings_perm (l : List String) : (sortStrings l).Perm l := by
  induction l with
  | nil => rfl
  | cons x xs ih =>
    exact (insertSorted_perm x (sortStrings xs)).trans (List.Perm.cons x ih)

theorem getDocumentFiles_nodup (listing : List DirEntry)
    (h : (listing.map DirEntry.name).Nodup) : (getDocumentFiles listing).Nodup := by
  unfold getDocumentFiles
  have hsub :
      List.Sublist
        ((listing.filter
          (fun e => e.isFile && docExtensions.contains ((extname e.name).toLower))).map
          DirEntry.name)
        (listing.map DirEntry.name) :=
    List.Sublist.map DirEntry.name (List.filter_sublist listing)
  exact ((sortStrings_perm _).nodup_iff).mpr (List.Nodup.sublist hsub h)

theorem chunkSizeOf_eq_one (n ns : Nat) (h0 : 0 < n) (h2 : n < ns) :
    chunkSizeOf n ns = 1 := by
  unfold chunkSizeOf
  have hns : 0 < ns := Nat.lt_of_le_of_lt (Nat.zero_le n) h2
  have hle : 1 ≤ (n + ns - 1) / ns := (Nat.le_div_iff_mul_le hns).mpr (by omega)
  have hlt : (n + ns - 1) / ns < 2 := (Nat.div_lt_iff_lt_mul hns).mpr (by omega)
  omega

theorem splitChunks_mem_length_one (files : List α) (ns : Nat)
    (h1 : files ≠ []) (h2 : files.length < ns) :
    ∀ c ∈ splitChunks files ns, c.length = 1 := by
  intro c hc
  have h0 : 0 < files.length := List.length_pos.mpr h1
  have hcs := chunkSizeOf_eq_one files.length ns h0 h2
  unfold splitChunks at hc
  rw [List.mem_filter] at hc
  obtain ⟨hmem, hne⟩ := hc
  rw [List.mem_map] at hmem
  obtain ⟨i, _, rfl⟩ := hmem
  rw [hcs] at hne ⊢
  have hne2 : (files.drop (i * 1)).take 1 ≠ [] := by
    intro hnil
    rw [hnil] at hne
    simp at hne
  have hpos : 0 < ((files.drop (i * 1)).take 1).length := List.length_pos.mpr hne2
  have hub : ((files.drop (i * 1)).take 1).length ≤ 1 := by
    rw [List.length_take]
    exact min_le_left _ _
  omega

theorem flatten_length_all_one (L : List (List α)) (h : ∀ c ∈ L, c.length = 1) :
    L.flatten.length = L.length := by
  induction L with
  | nil => rfl
  | cons c L ih =>
    rw [List.flatten_cons, List.length_append, h c (List.mem_cons_self _ _),
      ih (fun c hc => h c (List.mem_cons_of_mem _ hc)), List.length_cons]
    omega

theorem find?_mergeMetadata_aux (docs : List ImageMetadataDoc) (acc : MergedAcc)
    (n : String) :
    ((docs.foldl mergeOneDoc acc).aiData).find? (fun p => p.1 == n) =
      ((acc.aiData.find? (fun p => p.1 == n)).or
        (((docs.map ImageMetadataDoc.aiData).flatten).find? (fun p => p.1 == n))) := by
  induction docs generalizing acc with
  | nil => simp
  | cons d rest ih =>
    have step : (d :: rest).foldl mergeOneDoc acc = rest.foldl mergeOneDoc (mergeOneDoc acc d) := rfl
    rw [step, ih]
    simp only [mergeOneDoc]
    rw [find?_mergeEntries, Option.or_assoc, List.map_cons, List.flatten_cons,
      List.find?_append]

/-! ## Claim theorems -/

/-- C3: for every split run, the union of the content filenames assigned
across all produced packages equals the full sorted set of matching content
files discovered in the source directory (case-insensitive extension
filter, deduplicated because directory entries are unique), with no file
omitted and no file assigned to two different packages. -/
theorem splitter_coverage (listing : List DirEntry) (ns : Nat) (h1 : 0 < ns)
    (h2 : (listing.map DirEntry.name).Nodup) :
    (splitChunks (getDocumentFiles listing) ns).flatten = getDocumentFiles listing ∧
    List.Pairwise List.Disjoint (splitChunks (getDocumentFiles listing) ns) := by
  have hflat := splitChunks_flatten (getDocumentFiles listing) ns h1
  refine ⟨hflat, ?_⟩
  have hnodup : (getDocumentFiles listing).Nodup := getDocumentFiles_nodup listing h2
  have hfn : (splitChunks (getDocumentFiles listing) ns).flatten.Nodup := by
    rw [hflat]
    exact hnodup
  exact (List.nodup_flatten.mp hfn).2

/-- Witness for C3 at a concrete directory listing and `numSplits = 2`. -/
theorem splitter_coverage_witness :
    0 < 2 ∧
    ((([⟨"b.txt", true⟩, ⟨"a.md", true⟩, ⟨"c.exe", true⟩, ⟨"d.txt", false⟩] :
        List DirEntry).map DirEntry.name).Nodup) ∧
    ((splitChunks
        (getDocumentFiles
          [⟨"b.txt", true⟩, ⟨"a.md", true⟩, ⟨"c.exe", true⟩, ⟨"d.txt", false⟩]) 2).flatten =
      getDocumentFiles [⟨"b.txt", true⟩, ⟨"a.md", true⟩, ⟨"c.exe", true⟩, ⟨"d.txt", false⟩] ∧
      List.Pairwise List.Disjoint
        (splitChunks
          (getDocumentFiles
            [⟨"b.txt", true⟩, ⟨"a.md", true⟩, ⟨"c.exe", true⟩, ⟨"d.txt", false⟩]) 2)) :=
  ⟨by decide, by decide,
    splitter_coverage [⟨"b.txt", true⟩, ⟨"a.md", true⟩, ⟨"c.exe", true⟩, ⟨"d.txt", false⟩] 2
      (by decide) (by decide)⟩

/-- C4: splitting K files with pairwise distinct names into N work packages
and then joining all N resulting packages yields a consolidated content set
of exactly K files (in fact, the original file list itself). -/
theorem split_then_join_round_trip (files : List MediaFile) (ns : Nat)
    (h1 : 0 < ns) (h2 : (files.map MediaFile.name).Nodup) :
    collectImages (splitChunks files ns) = files ∧
    (collectImages (splitChunks files ns)).length = files.length := by
  have hmain : collectImages (splitChunks files ns) = files := by
    unfold collectImages
    rw [splitChunks_flatten files ns h1]
    exact dedupFirst_eq_self files [] h2 (by simp)
  exact ⟨hmain, by rw [hmain]⟩

/-- Witness for C4: three distinct files split into two packages and joined
back. -/
theorem split_then_join_round_trip_witness :
    0 < 2 ∧
    ((([⟨"a.jpg", [0]⟩, ⟨"b.jpg", [1]⟩, ⟨"c.jpg", [2]⟩] :
        List MediaFile).map MediaFile.name).Nodup) ∧
    (collectImages (splitChunks [⟨"a.jpg", [0]⟩, ⟨"b.jpg", [1]⟩, ⟨"c.jpg", [2]⟩] 2) =
      [⟨"a.jpg", [0]⟩, ⟨"b.jpg", [1]⟩, ⟨"c.jpg", [2]⟩] ∧
      (collectImages (splitChunks [⟨"a.jpg", [0]⟩, ⟨"b.jpg", [1]⟩, ⟨"c.jpg", [2]⟩] 2)).length =
        ([⟨"a.jpg", [0]⟩, ⟨"b.jpg", [1]⟩, ⟨"c.jpg", [2]⟩] : List MediaFile).length) :=
  ⟨by decide, by decide,
    split_then_join_round_trip [⟨"a.jpg", [0]⟩, ⟨"b.jpg", [1]⟩, ⟨"c.jpg", [2]⟩] 2
      (by decide) (by decide)⟩

/-- C6: when `numSplits` exceeds the matching file count, every produced
package holds exactly one file and the produced count (equal to the file
count, strictly below the request) is reported through the explicit
mismatch warning; and a `numSplits <= 0` request fails CLI validation with
the invalid-argument error before any chunk or package is built. -/
theorem split_boundary_behavior (files : List String) (ns : Nat) (nsi : Int)
    (h1 : files ≠ []) (h2 : files.length < ns) (h3 : nsi ≤ 0) :
    (∀ c ∈ splitChunks files ns, c.length = 1) ∧
    (splitChunks files ns).length = files.length ∧
    (splitChunks files ns).length < ns ∧
    splitMismatchWarned files ns = true ∧
    cliSplitAction nsi files = Except.error "Number of splits must be at least 1" := by
  have hone := splitChunks_mem_length_one files ns h1 h2
  have h0 : 0 < files.length := List.length_pos.mpr h1
  have hns : 0 < ns := Nat.lt_of_le_of_lt (Nat.zero_le _) h2
  have hcount : (splitChunks files ns).length = files.length := by
    have hlen := flatten_length_all_one _ hone
    rw [splitChunks_flatten files ns hns] at hlen
    omega
  refine ⟨hone, hcount, by omega, ?_, ?_⟩
  · unfold splitMismatchWarned
    rw [hcount]
    simp only [bne_iff_ne, ne_eq]
    omega
  · unfold cliSplitAction
    rw [if_pos (by omega : nsi < 1)]

/-- Witness for C6: one file, two requested splits, and a zero split
request. -/
theorem split_boundary_behavior_witness :
    (["a.txt"] : List String) ≠ [] ∧ (["a.txt"] : List String).length < 2 ∧ (0 : Int) ≤ 0 ∧
    ((∀ c ∈ splitChunks (["a.txt"] : List String) 2, c.length = 1) ∧
      (splitChunks (["a.txt"] : List String) 2).length = (["a.txt"] : List String).length ∧
      (splitChunks (["a.txt"] : List String) 2).length < 2 ∧
      splitMismatchWarned (["a.txt"] : List String) 2 = true ∧
      cliSplitAction 0 ["a.txt"] = Except.error "Number of splits must be at least 1") :=
  ⟨by decide, by decide, by decide,
    split_boundary_behavior ["a.txt"] 2 0 (by decide) (by decide) (by decide)⟩

/-- The five-file example directory of claim C10. -/
def exampleImageNames : List String := ["a.jpg", "b.jpg", "c.jpg", "d.jpg", "e.jpg"]

/-- C10: there are inputs with at least `numSplits` matching files for which
the splitter still produces strictly fewer than `numSplits` packages,
because it cuts fixed chunks of `ceil(totalFiles/numSplits)` files and
drops empty chunks: 5 files with `numSplits = 4` give chunk sizes
`[2, 2, 1]`, i.e. 3 packages instead of 4. -/
theorem chunking_fewer_packages_example :
    4 ≤ exampleImageNames.length ∧
    splitChunks exampleImageNames 4 = [["a.jpg", "b.jpg"], ["c.jpg", "d.jpg"], ["e.jpg"]] ∧
    (splitChunks exampleImageNames 4).map List.length = [2, 2, 1] ∧
    (splitChunks exampleImageNames 4).length = 3 := by
  refine ⟨by decide, by decide, by decide, by decide⟩

/-- C2 (amended): within one join run, for every duplicated content
filename the consolidated output holds exactly one file of that name,
byte-identical to the first file with that name in package-processing
order (directory-derived packages in input order, then archive-extracted
packages); for all-directory or all-archive inputs this is input-argument
order. -/
theorem collectImages_first_survives (pkgs : List (List MediaFile)) (n : String)
    (hdup : 2 ≤ ((pkgs.flatten).filter (fun f => f.name == n)).length) :
    ∃ fst, (pkgs.flatten).find? (fun f => f.name == n) = some fst ∧
      (collectImages pkgs).filter (fun f => f.name == n) = [fst] := by
  have hsome : ((pkgs.flatten).find? (fun f => f.name == n)).isSome := by
    rcases hne : (pkgs.flatten).find? (fun f => f.name == n) with _ | fst
    · exfalso
      have hnil : (pkgs.flatten).filter (fun f => f.name == n) = [] := by
        rw [List.filter_eq_nil_iff]
        exact List.find?_eq_none.mp hne
      rw [hnil] at hdup
      simp at hdup
    · rw [hne]
      rfl
  obtain ⟨fst, hf⟩ := Option.isSome_iff_exists.mp hsome
  refine ⟨fst, hf, ?_⟩
  unfold collectImages
  rw [dedupFirst_filter_name _ [] n (by simp), hf]
  rfl

/-- Witness for C2: two packages both holding an `x.jpg`, with different
bytes. -/
theorem collectImages_first_survives_witness :
    2 ≤ ((([[⟨"x.jpg", [1]⟩], [⟨"x.jpg", [2]⟩]] : List (List MediaFile)).flatten).filter
          (fun f => f.name == "x.jpg")).length ∧
    (∃ fst,
      (([[⟨"x.jpg", [1]⟩], [⟨"x.jpg", [2]⟩]] : List (List MediaFile)).flatten).find?
          (fun f => f.name == "x.jpg") = some fst ∧
      (collectImages [[⟨"x.jpg", [1]⟩], [⟨"x.jpg", [2]⟩]]).filter
          (fun f => f.name == "x.jpg") = [fst]) :=
  ⟨by decide, collectImages_first_survives [[⟨"x.jpg", [1]⟩], [⟨"x.jpg", [2]⟩]] "x.jpg" (by decide)⟩

/-- The work package inside the archive given FIRST on the command line. -/
def cexArchivePkg : Package := { images := [⟨"x.jpg", [1]⟩], metadataDocs := [] }

/-- The work package inside the directory given SECOND on the command line. -/
def cexDirPkg : Package := { images := [⟨"x.jpg", [2]⟩], metadataDocs := [] }

/-- Inputs of the C2 counterexample: an archive first, a directory second. -/
def cexJoinInputs : List JoinInput :=
  [JoinInput.archive "p1.tar.gz" [cexArchivePkg],
   JoinInput.dir "incoming" [cexDirPkg] []]

/-- C2 counterexample: with the archive `p1.tar.gz` (whose `x.jpg` has bytes
`[1]`) given before the directory input (whose `x.jpg` has bytes `[2]`),
`detectAndExtractArchives` appends archive-extracted packages after all
directory-derived ones, so the consolidated `x.jpg` carries bytes `[2]` —
NOT the bytes of the first package in input-argument order as the claim
states. -/
theorem joiner_input_order_cex :
    cexJoinInputs.head? = some (JoinInput.archive "p1.tar.gz" [cexArchivePkg]) ∧
    cexArchivePkg.images = [⟨"x.jpg", [1]⟩] ∧
    collectImages ((detectAndExtractArchives cexJoinInputs).map Package.images) =
      [⟨"x.jpg", [2]⟩] ∧
    ([2] : List Nat) ≠ [1] := by
  refine ⟨rfl, rfl, by decide, by decide⟩

/-- The first metadata document of the C1 scenario (model `M1`). -/
def scenarioDocM1 : ImageMetadataDoc :=
  { captions := []
    aiData := [("a.jpg", { tag := "cat", modelUsed := some "M1" })]
    totalImages := 1 }

/-- The second metadata document of the C1 scenario (model `M2`). -/
def scenarioDocM2 : ImageMetadataDoc :=
  { captions := []
    aiData := [("a.jpg", { tag := "dog", modelUsed := some "M2" }),
               ("b.jpg", { tag := "bird", modelUsed := some "M2" })]
    totalImages := 2 }

/-- C1 (amended): for the image-variant joiner, the merged document maps
each filename to the record of the earliest-processed metadata document
containing it (first key occurrence across the documents in order), and the
claim's scenario yields items `a.jpg → cat`, `b.jpg → bird`, models
`["M1", "M2"]` and `total_analyzed_images = 2`. The document-variant merge
behaves differently (see the counterexample). -/
theorem mergeMetadata_first_survives (docs : List ImageMetadataDoc) (n : String) :
    (mergeMetadata docs).aiData.find? (fun p => p.1 == n) =
      ((docs.map ImageMetadataDoc.aiData).flatten).find? (fun p => p.1 == n) ∧
    (mergeMetadata [scenarioDocM1, scenarioDocM2]).aiData =
      [("a.jpg", { tag := "cat", modelUsed := some "M1" }),
       ("b.jpg", { tag := "bird", modelUsed := some "M2" })] ∧
    (mergeMetadata [scenarioDocM1, scenarioDocM2]).modelsUsed = ["M1", "M2"] ∧
    (mergeMetadata [scenarioDocM1, scenarioDocM2]).totalAnalyzed = 2 := by
  refine ⟨?_, by decide, by decide, by decide⟩
  have haux :=
    find?_mergeMetadata_aux docs { captions := [], aiData := [], models := [], imageCount := 0 } n
  simpa using haux

/-- The C1 scenario's first document, as read by the document variant. -/
def cexDocuDocM1 : DocuMetadataDoc String :=
  { metadata := [("a.jpg", "cat")], aiModel := some "M1" }

/-- The C1 scenario's second document, as read by the document variant. -/
def cexDocuDocM2 : DocuMetadataDoc String :=
  { metadata := [("a.jpg", "dog"), ("b.jpg", "bird")], aiModel := some "M2" }

/-- C1 counterexample: the document-variant `mergeMetadata` merges with
`Object.assign`, so on the claim's own scenario the merged record for
`a.jpg` is the LATER document's `dog`, not the earliest document's `cat`
required by the first-survives claim. -/
theorem docuMerge_last_survives_cex :
    (docuMergeMetadata [cexDocuDocM1, cexDocuDocM2]).map
        (fun m => m.metadata.find? (fun p => p.1 == "a.jpg")) =
      some (some ("a.jpg", "dog")) ∧
    ("dog" : String) ≠ "cat" := by
  refine ⟨by decide, by decide⟩

/-- C5 (amended): the image-variant Joiner given valid packages with no
analysis-metadata documents at all still succeeds and emits a content-only
result flagging `aiEnabled: false`, with empty analysis items and captions,
zero analyzed items, and a total image count equal to the deduplicated
content-file count. (The document-variant joiner instead fails in this
situation — see the counterexample.) -/
theorem joiner_no_metadata_content_only (vp : List Package) (h1 : vp ≠ [])
    (h2 : ∀ p ∈ vp, p.metadataDocs = []) :
    ∃ r, joinValidated vp = Except.ok r ∧
      r.metadata.aiEnabled = false ∧
      r.metadata.aiData = [] ∧
      r.metadata.captions = [] ∧
      r.metadata.totalAnalyzed = 0 ∧
      r.metadata.totalImages = r.images.length ∧
      (r.images.map MediaFile.name).Nodup := by
  have hvp : vp.isEmpty = false := by simpa [List.isEmpty_iff] using h1
  have hdocs : (vp.map Package.metadataDocs).flatten = [] := by
    rw [List.flatten_eq_nil_iff]
    intro l hl
    rcases List.mem_map.mp hl with ⟨p, hp, rfl⟩
    exact h2 p hp
  refine
    ⟨{ images := collectImages (vp.map Package.images)
       metadata :=
        { captions := []
          aiData := []
          modelsUsed := []
          totalImages := (collectImages (vp.map Package.images)).length
          totalAnalyzed := 0
          aiEnabled := false } },
      ?_, rfl, rfl, rfl, rfl, rfl, dedupFirst_names_nodup _ _⟩
  unfold joinValidated
  rw [hvp, hdocs]
  rfl

/-- Witness for C5: one valid package with two images and no metadata. -/
theorem joiner_no_metadata_content_only_witness :
    ([({ images := [⟨"a.jpg", [0]⟩, ⟨"b.jpg", [1]⟩], metadataDocs := [] })] : List Package) ≠ [] ∧
    (∀ p ∈ ([({ images := [⟨"a.jpg", [0]⟩, ⟨"b.jpg", [1]⟩], metadataDocs := [] })] : List Package),
      p.metadataDocs = []) ∧
    (∃ r,
      joinValidated [({ images := [⟨"a.jpg", [0]⟩, ⟨"b.jpg", [1]⟩], metadataDocs := [] })] =
        Except.ok r ∧
      r.metadata.aiEnabled = false ∧
      r.metadata.aiData = [] ∧
      r.metadata.captions = [] ∧
      r.metadata.totalAnalyzed = 0 ∧
      r.metadata.totalImages = r.images.length ∧
      (r.images.map MediaFile.name).Nodup) :=
  ⟨by decide, by decide,
    joiner_no_metadata_content_only
      [({ images := [⟨"a.jpg", [0]⟩, ⟨"b.jpg", [1]⟩], metadataDocs := [] })]
      (by decide) (by decide)⟩

/-- A valid document package carrying no metadata files. -/
def cexDocuPackage : DocuPackage String := { name := "docu-package-001", metadataDocs := [] }

/-- C5 counterexample: the document-variant joiner given a valid package but
zero metadata files does NOT succeed — it throws "No valid metadata files
found to merge" (join-work.js lines 336-338), contradicting the claim that
every join run without metadata still succeeds content-only. -/
theorem docuJoin_no_metadata_cex :
    docuJoin [cexDocuPackage] = Except.error "No valid metadata files found to merge" := rfl

/-- C7 (amended): in the image-variant joiner, one temp directory is created
exactly when archives are among the inputs, and the `finally`-scoped cleanup
leaves it removed at the end of every run — on the success path and on the
error path alike — so a run never terminates with the temp directory still
present. The document-variant joiner has no temp directory at all (see the
counterexample). -/
theorem workJoiner_tempdir_lifecycle (inputs : List JoinInput) :
    (workJoinerJoin inputs).tempDir = (if hasArchives inputs then some false else none) ∧
    (workJoinerJoin inputs).tempDir ≠ some true := by
  have hmain :
      (workJoinerJoin inputs).tempDir = (if hasArchives inputs then some false else none) := by
    unfold workJoinerJoin
    cases hb : joinValidated (detectAndExtractArchives inputs) <;>
      cases hh : hasArchives inputs <;> simp [hh]
  refine ⟨hmain, ?_⟩
  rw [hmain]
  cases hasArchives inputs <;> simp

/-- The input folder of the C7 counterexample: it holds one zip archive. -/
def cexDocuFs : DocuFsState := { inputEntries := ["docu-package-001.zip"], tempDirCreated := false }

/-- C7 counterexample: a document-variant join run that encounters a
compressed archive extracts it into the INPUT folder itself (no temporary
scratch directory is ever created — the source has no `mkdtemp`), and at
run end the extracted package folder is still there; nothing was removed. -/
theorem docu_extraction_in_place_cex :
    (docuJoinRunState cexDocuFs).tempDirCreated = false ∧
    "docu-package-001" ∈ (docuJoinRunState cexDocuFs).inputEntries ∧
    "docu-package-001.zip" ∈ (docuJoinRunState cexDocuFs).inputEntries := by
  refine ⟨rfl, by decide, by decide⟩

/-- C8: evaluation of the output-overwrite handling at the failing input —
the output directory exists and `--force` was NOT given — showing the
existing directory is removed anyway, with no confirmation requested; the
code's own comment says a prompt is intended here. -/
theorem output_removed_without_force :
    (handleExistingOutput true false).removedExisting = true ∧
    (handleExistingOutput true false).confirmationRequested = false :=
  ⟨rfl, rfl⟩

theorem getLast?_append_pair (l : List α) (a b : α) :
    (l ++ [a, b]).getLast? = some b := by
  rw [show l ++ [a, b] = (l ++ [a]) ++ [b] by simp]
  exact List.getLast?_concat _

theorem dropLast_append_pair (l : List α) (a b : α) :
    (l ++ [a, b]).dropLast = l ++ [a] := by
  rw [show l ++ [a, b] = (l ++ [a]) ++ [b] by simp]
  exact List.dropLast_concat

/-- C9 (amended): in the image-variant splitter the manifest write is the
last step of creating a package, so it is a valid completion marker there;
in the document-variant splitter the manifest write is only the
second-to-last step — the per-package `README.md` is written after it, so a
docu package can exist with its manifest present but its README missing. -/
theorem manifest_position_in_package_steps (chunkId : Nat) (files : List String)
    (docsFolderExists : Bool) :
    (imageCreateWorkPackage chunkId files docsFolderExists).getLast? =
      some (FsEvent.writeFile ("work-package-" ++ pad3 chunkId ++ "/package-manifest.json")) ∧
    (docuCreateWorkPackage chunkId files docsFolderExists).getLast? =
      some (FsEvent.writeFile ("docu-package-" ++ pad3 chunkId ++ "/README.md")) ∧
    (docuCreateWorkPackage chunkId files docsFolderExists).dropLast.getLast? =
      some (FsEvent.writeFile ("docu-package-" ++ pad3 chunkId ++ "/package-manifest.json")) := by
  refine ⟨?_, ?_, ?_⟩
  · unfold imageCreateWorkPackage
    simp only [← List.append_assoc]
    exact List.getLast?_concat _
  · unfold docuCreateWorkPackage
    simp only [← List.append_assoc]
    exact getLast?_append_pair _ _ _
  · unfold docuCreateWorkPackage
    simp only [← List.append_assoc]
    rw [dropLast_append_pair]
    exact List.getLast?_concat _

/-- C9 counterexample: for a concrete docu package (`chunkId = 1`, one
document, no docs folder) the last creation step is the `README.md` write,
not the manifest write, and the manifest write occurs strictly before the
end — so a crash after the manifest write leaves a partially-created
package whose manifest is present, contradicting the claim that the
manifest write is the last step for every package of a split run. -/
theorem docu_manifest_not_last_cex :
    (docuCreateWorkPackage 1 ["a.txt"] false).getLast? =
      some (FsEvent.writeFile "docu-package-001/README.md") ∧
    some (FsEvent.writeFile "docu-package-001/README.md") ≠
      some (FsEvent.writeFile "docu-package-001/package-manifest.json") ∧
    FsEvent.writeFile "docu-package-001/package-manifest.json" ∈
      (docuCreateWorkPackage 1 ["a.txt"] false).dropLast := by
  refine ⟨by decide, by decide, by decide⟩
end STTools
